import Mathlib

/-!
Verification of the dynamic query / response-shaping engine of the
`next15-drizzle-turso-graphql` repository.

The engine under study is the pair of listing route handlers for the
`ethscriptions` entity (two variants: one computing the filtered total with a
same-pass `COUNT(*) OVER()` window aggregate, one with a separate preliminary
unfiltered count) and the listing handler for the `collections` entity, plus
the recursive include/exclude projection walker `processObject`.

Modelling conventions:
* machine numbers of the store are `Int` (SQLite integer columns);
* the composite keyset cursor `"{block_number}_{transaction_index}"` is
  modelled as the decoded pair `Int × Int` (both routes immediately split the
  string and parse both halves with `Number`);
* drizzle's `query.where(...)` REPLACES any previously installed where clause;
  the model tracks the clause that is installed last;
* SQL `LIKE` is modelled with `%` as "any run of characters" over ASCII
  case-folded strings (SQLite's default `LIKE` is ASCII case-insensitive);
  the single-character wildcard `_` of SQL is not modelled — no claim
  exercises it;
* relation expansion (`expand=` with its left joins) is not modelled — no
  claim under consideration touches it;
* a run result of `none` marks an execution on which the JavaScript source
  throws (e.g. `orm[op]` is not a function) or relies on SQLite type-ordering
  of a non-numeric text against an integer column; claims never depend on
  those paths except where explicitly noted.
-/

namespace EthApi

/-- Lexicographic non-strict order on the composite cursor key
`(block_number, transaction_index)`; SQLite row values `(a, b) <= (c, d)`
compare exactly this way. -/
def keyLe (a b : Int × Int) : Bool :=
  decide (a.1 < b.1 ∨ (a.1 = b.1 ∧ a.2 ≤ b.2))

/-- Lexicographic strict order on the composite cursor key, the meaning of the
SQL row-value comparison `(block_number, transaction_index) > (bn, ti)`. -/
def keyLt (a b : Int × Int) : Bool :=
  decide (a.1 < b.1 ∨ (a.1 = b.1 ∧ a.2 < b.2))

/-- Step of the wildcard matcher: matching a pattern against the non-empty
string `c :: s`, where `rest` matches any pattern against `s`. -/
def wmAux (wc c : Char) (rest : List Char → Bool) : List Char → Bool
  | [] => false
  | x :: ps =>
    if x = wc then wmAux wc c rest ps || rest (x :: ps)
    else (x == c) && rest ps

def wildMatchL (wc : Char) : List Char → List Char → Bool
  | [], p => p.all (fun x => x == wc)
  | c :: s, p => wmAux wc c (wildMatchL wc s) p

/-- Wildcard matcher: `wc` matches any run of characters, every other
character of the pattern matches itself, anchored at both ends.
Instantiated with `%` it is the meaning of SQL `LIKE` (without the `_`
wildcard), with `*` it is the meaning of the anchored regular expression the
projection walker builds (`pattern.replace(/\./g, "\\.").replace(/\*/g, ".*")`
wrapped in `^...$`). -/
def wildMatch (wc : Char) (p s : List Char) : Bool := wildMatchL wc s p

/-- Case folding of one ASCII character. -/
def charLower (c : Char) : Char :=
  if 65 ≤ c.toNat ∧ c.toNat ≤ 90 then Char.ofNat (c.toNat + 32) else c

/-- ASCII case folding, the collation SQLite's default `LIKE` applies. -/
def asciiLower (s : String) : String := ⟨s.data.map charLower⟩

/-- Meaning of the SQL predicate `column LIKE pat`. -/
def likeMatch (pat s : String) : Bool :=
  wildMatch '%' (asciiLower pat).data (asciiLower s).data

/-- Whether a request value contains the user-facing wildcard, the source's
`value.includes('*')`. -/
def hasWild (s : String) : Bool := s.data.any (fun c => c == '*')

/-- Wildcard normalisation, the source's `value.replace(/\*/g, '%')` — every
`*` character becomes `%`. -/
def normWild (s : String) : String :=
  ⟨s.data.map (fun c => if c == '*' then '%' else c)⟩

/-- One row of the `ethscriptions` table, restricted to the columns the
listing route selects. -/
structure Row where
  id : String
  number : Int
  block_number : Int
  block_timestamp : Int
  transaction_index : Int
  media_type : String
  media_subtype : String
  content_type : String
  content_sha : String
  is_esip0 : Bool
  is_esip3 : Bool
  is_esip4 : Bool
  is_esip6 : Bool
  is_esip8 : Bool
  creator : String
  initial_owner : String
  current_owner : String
  previous_owner : String
  updated_at : Int
  collection_id : Option String
deriving DecidableEq, Repr

/-- Composite ordering key of a row: the pair the route sorts on
(`orderBy(order(block_number), order(transaction_index))`) and compares
cursors against. -/
def rowKey (r : Row) : Int × Int := (r.block_number, r.transaction_index)

/-- Integer-typed filterable columns, in the order the route iterates them. -/
inductive NumField
  | number | block_number | block_timestamp | transaction_index | updated_at
deriving DecidableEq, Repr

def NumField.get : NumField → Row → Int
  | .number, r => r.number
  | .block_number, r => r.block_number
  | .block_timestamp, r => r.block_timestamp
  | .transaction_index, r => r.transaction_index
  | .updated_at, r => r.updated_at

def NumField.colName : NumField → String
  | .number => "number"
  | .block_number => "block_number"
  | .block_timestamp => "block_timestamp"
  | .transaction_index => "transaction_index"
  | .updated_at => "updated_at"

/-- Text-typed filterable columns, in the order the route iterates them. -/
inductive TextField
  | id | media_type | media_subtype | content_type | content_sha
  | creator | initial_owner | current_owner | previous_owner
deriving DecidableEq, Repr

def TextField.get : TextField → Row → String
  | .id, r => r.id
  | .media_type, r => r.media_type
  | .media_subtype, r => r.media_subtype
  | .content_type, r => r.content_type
  | .content_sha, r => r.content_sha
  | .creator, r => r.creator
  | .initial_owner, r => r.initial_owner
  | .current_owner, r => r.current_owner
  | .previous_owner, r => r.previous_owner

def TextField.colName : TextField → String
  | .id => "id"
  | .media_type => "media_type"
  | .media_subtype => "media_subtype"
  | .content_type => "content_type"
  | .content_sha => "content_sha"
  | .creator => "creator"
  | .initial_owner => "initial_owner"
  | .current_owner => "current_owner"
  | .previous_owner => "previous_owner"

/-- Boolean ESIP flag columns. -/
inductive BoolField
  | is_esip0 | is_esip3 | is_esip4 | is_esip6 | is_esip8
deriving DecidableEq, Repr

def BoolField.get : BoolField → Row → Bool
  | .is_esip0, r => r.is_esip0
  | .is_esip3, r => r.is_esip3
  | .is_esip4, r => r.is_esip4
  | .is_esip6, r => r.is_esip6
  | .is_esip8, r => r.is_esip8

/-- One predicate clause contributed to the AND-combined where clause; the
constructors mirror the drizzle operator calls the route emits. -/
inductive Cond
  | eqNum (f : NumField) (n : Int)
  | gtNum (f : NumField) (n : Int)
  | ltNum (f : NumField) (n : Int)
  | gteNum (f : NumField) (n : Int)
  | lteNum (f : NumField) (n : Int)
  | eqText (f : TextField) (s : String)
  | likeText (f : TextField) (s : String)
  | gtText (f : TextField) (s : String)
  | ltText (f : TextField) (s : String)
  | gteText (f : TextField) (s : String)
  | lteText (f : TextField) (s : String)
  | eqBool (f : BoolField) (b : Bool)
  | collNull
  | collNotNull
  | eqColl (s : String)
  | likeColl (s : String)
  | cursorGt (bn ti : Int)
  | cursorLt (bn ti : Int)
deriving DecidableEq, Repr

/-- Whether a clause is a pattern-match (`LIKE`) clause. -/
def Cond.isLike : Cond → Bool
  | .likeText _ _ => true
  | .likeColl _ => true
  | _ => false

/-- Truth of one clause at one row.  Text comparison clauses use the byte
order of the strings (SQLite BINARY collation); the SQL `column = value` and
`column LIKE value` on the nullable `collection_id` are false at NULL. -/
def Cond.holds : Cond → Row → Bool
  | .eqNum f n, r => decide (f.get r = n)
  | .gtNum f n, r => decide (n < f.get r)
  | .ltNum f n, r => decide (f.get r < n)
  | .gteNum f n, r => decide (n ≤ f.get r)
  | .lteNum f n, r => decide (f.get r ≤ n)
  | .eqText f s, r => decide (f.get r = s)
  | .likeText f s, r => likeMatch s (f.get r)
  | .gtText f s, r => decide (s < f.get r)
  | .ltText f s, r => decide (f.get r < s)
  | .gteText f s, r => decide (s ≤ f.get r)
  | .lteText f s, r => decide (f.get r ≤ s)
  | .eqBool f b, r => f.get r == b
  | .collNull, r => r.collection_id.isNone
  | .collNotNull, r => r.collection_id.isSome
  | .eqColl s, r => match r.collection_id with
    | some v => decide (v = s)
    | none => false
  | .likeColl s, r => match r.collection_id with
    | some v => likeMatch s v
    | none => false
  | .cursorGt bn ti, r => keyLt (bn, ti) (rowKey r)
  | .cursorLt bn ti, r => keyLt (rowKey r) (bn, ti)

/-- Parsed shape of one numeric filter parameter: a bare value
(`field=value`), an explicit operator (`field=op:value`), or a range
(`field=range:min,max`). -/
inductive NumFilter
  | plain (n : Int)
  | opv (op : String) (n : Int)
  | rangeF (lo hi : Int)
deriving DecidableEq, Repr

/-- Compilation of one numeric filter, mirroring the route's `switch (op)`:
`gt`, `lt`, `gte`, `lte` map to the strict/inclusive comparisons, `range`
emits the two inclusive bounds, every other operator string falls to the
`default:` branch and compiles to equality. -/
def numConds (f : NumField) : NumFilter → List Cond
  | .plain n => [.eqNum f n]
  | .opv op n =>
    if op = "gt" then [.gtNum f n]
    else if op = "lt" then [.ltNum f n]
    else if op = "gte" then [.gteNum f n]
    else if op = "lte" then [.lteNum f n]
    else [.eqNum f n]
  | .rangeF lo hi => [.gteNum f lo, .lteNum f hi]

/-- Compilation of one top-level text filter: a value containing `*` compiles
to `LIKE` on the `%`-normalised value, any other value to exact equality. -/
def textCond (f : TextField) (v : String) : Cond :=
  if hasWild v then .likeText f (normWild v) else .eqText f v

/-- Compilation of the tri-state `collection_id` filter.  The surrounding
`if (searchQuery.collection_id)` is a JavaScript truthiness test, so an empty
string contributes nothing. -/
def collectionIdConds : Option String → List Cond
  | none => []
  | some v =>
    if v = "" then []
    else if v = "true" then [.collNotNull]
    else if v = "false" ∨ v = "null" then [.collNull]
    else if hasWild v then [.likeColl (normWild v)] else [.eqColl v]

/-- Field addressed by a nested `where[field][op]` filter. -/
inductive WhereField
  | wnum (f : NumField)
  | wtext (f : TextField)
deriving DecidableEq, Repr

def WhereField.colName : WhereField → String
  | .wnum f => f.colName
  | .wtext f => f.colName

/-- Compilation of one nested `where[field][op]=value` entry — the source's
`orm[op](ethscriptions[key], val)` after `*`→`%` normalisation of the value.
The requested operator name is used as-is to pick the drizzle operator.
`none` stands for an execution the model does not define: an operator name
that is not one of the six comparison operators (where the JavaScript either
throws or builds a non-predicate fragment), or a non-numeric value against an
integer column (where SQLite type ordering would decide). -/
def whereCond (f : WhereField) (op : String) (v : String) : Option Cond :=
  let val := if hasWild v then normWild v else v
  match f with
  | .wtext tf =>
    if op = "eq" then some (.eqText tf val)
    else if op = "like" then some (.likeText tf val)
    else if op = "gt" then some (.gtText tf val)
    else if op = "lt" then some (.ltText tf val)
    else if op = "gte" then some (.gteText tf val)
    else if op = "lte" then some (.lteText tf val)
    else none
  | .wnum nf =>
    match val.toInt? with
    | none => none
    | some n =>
      if op = "eq" then some (.eqNum nf n)
      else if op = "like" then none
      else if op = "gt" then some (.gtNum nf n)
      else if op = "lt" then some (.ltNum nf n)
      else if op = "gte" then some (.gteNum nf n)
      else if op = "lte" then some (.lteNum nf n)
      else none

/-- A nested `where` object: per-field lists of operator/value pairs, in the
order `Object.entries` yields them. -/
abbrev WhereObj : Type := List (WhereField × List (String × String))

/-- Compilation of the whole `where` object into the clause list that the
single `query.where(and(...conds))` of the where branch installs. -/
def compileWhere (w : WhereObj) : Option (List Cond) :=
  (w.mapM (fun fs : WhereField × List (String × String) =>
    fs.2.mapM (fun ov => whereCond fs.1 ov.1 ov.2))).map List.flatten

/-- Validated search query of the ethscriptions listing route (the
`searchQuery` the handler receives), one optional filter slot per column. -/
structure EthQuery where
  page : Nat := 1
  page_size : Nat := 25
  page_key : Option (Int × Int) := none
  order : String := "desc"
  number : Option NumFilter := none
  block_number : Option NumFilter := none
  block_timestamp : Option NumFilter := none
  transaction_index : Option NumFilter := none
  updated_at : Option NumFilter := none
  collection_id : Option String := none
  idQ : Option String := none
  media_type : Option String := none
  media_subtype : Option String := none
  content_type : Option String := none
  content_sha : Option String := none
  creator : Option String := none
  initial_owner : Option String := none
  current_owner : Option String := none
  previous_owner : Option String := none
  is_esip0 : Option Bool := none
  is_esip3 : Option Bool := none
  is_esip4 : Option Bool := none
  is_esip6 : Option Bool := none
  is_esip8 : Option Bool := none
  whereQ : Option WhereObj := none
deriving DecidableEq, Repr

def optNumConds (f : NumField) : Option NumFilter → List Cond
  | none => []
  | some nf => numConds f nf

def optTextConds (f : TextField) : Option String → List Cond
  | none => []
  | some v => [textCond f v]

def optBoolConds (f : BoolField) : Option Bool → List Cond
  | none => []
  | some b => [.eqBool f b]

/-- The `conditions` array the route accumulates before touching pagination:
numeric filters, the tri-state `collection_id` filter, text filters, boolean
ESIP filters, in source order. -/
def buildConds (q : EthQuery) : List Cond :=
  optNumConds .number q.number ++
  optNumConds .block_number q.block_number ++
  optNumConds .block_timestamp q.block_timestamp ++
  optNumConds .transaction_index q.transaction_index ++
  optNumConds .updated_at q.updated_at ++
  collectionIdConds q.collection_id ++
  optTextConds .id q.idQ ++
  optTextConds .media_type q.media_type ++
  optTextConds .media_subtype q.media_subtype ++
  optTextConds .content_type q.content_type ++
  optTextConds .content_sha q.content_sha ++
  optTextConds .creator q.creator ++
  optTextConds .initial_owner q.initial_owner ++
  optTextConds .current_owner q.current_owner ++
  optTextConds .previous_owner q.previous_owner ++
  optBoolConds .is_esip0 q.is_esip0 ++
  optBoolConds .is_esip3 q.is_esip3 ++
  optBoolConds .is_esip4 q.is_esip4 ++
  optBoolConds .is_esip6 q.is_esip6 ++
  optBoolConds .is_esip8 q.is_esip8

/-- The keyset clause pushed in cursor mode: strictly greater for ascending
order, strictly lesser for descending, over the composite row-value. -/
def cursorConds (q : EthQuery) : List Cond :=
  match q.page_key with
  | some (bn, ti) =>
    if q.order = "asc" then [.cursorGt bn ti] else [.cursorLt bn ti]
  | none => []

/-- The clause list the executed query ends up with.  The route first calls
`query.where(and(...conditions))`, then pushes the cursor clause, then either
re-installs `and(...conditions)` (no `where` parameter) or installs
`and(...whereConds)` — and drizzle's `.where` REPLACES the prior clause, so
the last installation wins: with a `where` parameter present, every
previously accumulated condition (top-level filters and cursor clause alike)
is discarded. -/
def executedConds (q : EthQuery) : Option (List Cond) :=
  match q.whereQ with
  | none => some (buildConds q ++ cursorConds q)
  | some w => compileWhere w

/-- The OFFSET the executed query carries: zero whenever a cursor is present
(`offset` is computed as 0 and `query.offset` is not even called), the
page-window offset otherwise. -/
def executedOffset (q : EthQuery) : Nat :=
  if q.page_key.isSome then 0 else (q.page - 1) * q.page_size

/-- Row order of the executed query:
`orderBy(order(block_number), order(transaction_index))` — the composite key,
both components in the same direction. -/
def rowLeB (ascend : Bool) (a b : Row) : Bool :=
  if ascend then keyLe (rowKey a) (rowKey b) else keyLe (rowKey b) (rowKey a)

/-- Sorting the filtered rows, the meaning of the ORDER BY clause. -/
def sortRows (ascend : Bool) (l : List Row) : List Row :=
  List.insertionSort (fun a b => rowLeB ascend a b = true) l

/-- Response envelope of the listing routes (union of the offset-mode and
cursor-mode pagination shapes; fields absent from a shape stay `none`). -/
structure EthResponse where
  total : Nat
  page_size : Nat
  pages : Option Nat := none
  page : Option Nat := none
  prev : Option Nat := none
  next : Option Nat := none
  items_left : Option Nat := none
  page_key : Option (Int × Int) := none
  has_more : Bool
  data : List Row
  status : Nat
deriving DecidableEq, Repr

/-- Model of `Math.ceil(total / page_size)` for natural inputs. -/
def ceilDiv (a b : Nat) : Nat := (a + b - 1) / b

/-- Assembling the pagination envelope from the computed total and the page
rows, mirroring the tail of the route (`left`, `has_next`, `nextCursor`, the
two pagination shapes).  `withItemsLeft` distinguishes the variant whose
cursor shape carries `items_left` from the one whose does not. -/
def mkResponse (q : EthQuery) (total : Nat) (rows : List Row)
    (withItemsLeft : Bool) : EthResponse :=
  let ps := q.page_size
  let offset := executedOffset q
  let left : Int := (total : Int) - (ps : Int)
  let has_next : Option Nat :=
    if (total : Int) > (offset : Int) + (ps : Int) then some (q.page + 1) else none
  let nextCursor : Option (Int × Int) :=
    if has_next.isSome then rows.getLast?.map rowKey else none
  if q.page_key.isSome then
    { total := total, page_size := ps,
      items_left := if withItemsLeft then some (if left < 0 then 0 else left.toNat) else none,
      page_key := nextCursor, has_more := decide (left > 0),
      data := rows, status := 200 }
  else
    { total := total, page_size := ps,
      pages := some (ceilDiv total ps), page := some q.page,
      prev := if 1 < q.page then some (q.page - 1) else none,
      next := has_next, page_key := nextCursor, has_more := has_next.isSome,
      data := rows, status := 200 }

/-- Truth of the AND-combined clause list at one row, the meaning of the
installed `where(and(...))`. -/
def condsHold (cs : List Cond) (r : Row) : Bool := cs.all (fun c => c.holds r)

/-- The rows surviving the executed WHERE clause. -/
def filteredRows (store : List Row) (conds : List Cond) : List Row :=
  store.filter (condsHold conds)

/-- The page window the executed query returns: WHERE, then ORDER BY, then
OFFSET and LIMIT. -/
def pageRows (store : List Row) (q : EthQuery) (conds : List Cond) : List Row :=
  ((sortRows (q.order = "asc") (filteredRows store conds)).drop
    (executedOffset q)).take q.page_size

/-- The total the window-aggregate variant reports: the `COUNT(*) OVER()`
window count equals the filtered-set size and is read off the first returned
row, falling back to 0 when the page is empty (`results[0]?.total ?? 0`). -/
def windowTotal (store : List Row) (q : EthQuery) (conds : List Cond) : Nat :=
  if (pageRows store q conds).isEmpty then 0 else (filteredRows store conds).length

/-- The ethscriptions listing variant whose select list carries
`total: sql(COUNT(*) OVER())`: WHERE, then ORDER BY, then OFFSET/LIMIT; the
window count is taken over the filtered set (before LIMIT/OFFSET), and the
handler reads it off the first returned row, falling back to 0
(`results[0]?.total ?? 0`) when the page is empty.  `none` marks the
undefined executions described at `whereCond`. -/
def runEth002 (store : List Row) (q : EthQuery) : Option EthResponse :=
  (executedConds q).map (fun conds =>
    mkResponse q (windowTotal store q conds) (pageRows store q conds) true)

/-- The ethscriptions listing variant that first runs a separate
`db.select({ total: COUNT(*) OVER() }).from(ethscriptions)` with no filter at
all: its `total` is the whole table's row count, whatever the filters say.
(On an empty table the JavaScript destructuring `[{ total }]` of an empty
result would throw; the model returns 0 there.) -/
def runEth001 (store : List Row) (q : EthQuery) : Option EthResponse :=
  (executedConds q).map (fun conds =>
    mkResponse q store.length (pageRows store q conds) false)

/-! ### The collections listing route -/

/-- One row of the `collections` table, restricted to the selected columns. -/
structure Collection where
  created_at : Int
  id : String
  supply : Int
  slug : String
  name : String
  description : String
  logo : String
  banner : String
  links : String
  team : String
  royalties : String
  verified : Bool
deriving DecidableEq, Repr

/-- Text-typed filterable columns of the collections route, in iteration
order. -/
inductive CTextField
  | id | slug | name | description | logo | banner
deriving DecidableEq, Repr

def CTextField.get : CTextField → Collection → String
  | .id, c => c.id
  | .slug, c => c.slug
  | .name, c => c.name
  | .description, c => c.description
  | .logo, c => c.logo
  | .banner, c => c.banner

/-- Predicate clauses of the collections route. -/
inductive CCond
  | eqT (f : CTextField) (s : String)
  | likeT (f : CTextField) (s : String)
  | gtT (f : CTextField) (s : String)
  | ltT (f : CTextField) (s : String)
  | gteT (f : CTextField) (s : String)
  | lteT (f : CTextField) (s : String)
  | eqSupply (n : Int)
  | gtSupply (n : Int)
  | ltSupply (n : Int)
  | gteSupply (n : Int)
  | lteSupply (n : Int)
  | eqVerified (b : Bool)
  | curGt (t : Int)
  | curLt (t : Int)
deriving DecidableEq, Repr

def CCond.holds : CCond → Collection → Bool
  | .eqT f s, c => decide (f.get c = s)
  | .likeT f s, c => likeMatch s (f.get c)
  | .gtT f s, c => decide (s < f.get c)
  | .ltT f s, c => decide (f.get c < s)
  | .gteT f s, c => decide (s ≤ f.get c)
  | .lteT f s, c => decide (f.get c ≤ s)
  | .eqSupply n, c => decide (c.supply = n)
  | .gtSupply n, c => decide (n < c.supply)
  | .ltSupply n, c => decide (c.supply < n)
  | .gteSupply n, c => decide (n ≤ c.supply)
  | .lteSupply n, c => decide (c.supply ≤ n)
  | .eqVerified b, c => c.verified == b
  | .curGt t, c => decide (t < c.created_at)
  | .curLt t, c => decide (c.created_at < t)

/-- Compilation of one top-level text filter of the collections route; the
`slug` value is lowercased (both the raw value and the `%`-normalised one)
before the wildcard test that picks `LIKE` versus equality. -/
def cTextCond (f : CTextField) (v : String) : CCond :=
  let val0 := if hasWild v then normWild v else v
  let val := if f = .slug then asciiLower val0 else val0
  let value := if f = .slug then asciiLower v else v
  if hasWild value then .likeT f val else .eqT f value

/-- Compilation of the `supply` filter, the same `switch (op)` shape as the
numeric filters of the ethscriptions route (unknown operators fall to the
equality default). -/
def supplyConds : NumFilter → List CCond
  | .plain n => [.eqSupply n]
  | .opv op n =>
    if op = "gt" then [.gtSupply n]
    else if op = "lt" then [.ltSupply n]
    else if op = "gte" then [.gteSupply n]
    else if op = "lte" then [.lteSupply n]
    else [.eqSupply n]
  | .rangeF lo hi => [.gteSupply lo, .lteSupply hi]

/-- Validated search query of the collections listing route.  Its keyset
cursor is the single `created_at` column (no composite key). -/
structure CollQuery where
  page : Nat := 1
  page_size : Nat := 25
  page_key : Option Int := none
  order : String := "desc"
  idQ : Option String := none
  slug : Option String := none
  name : Option String := none
  description : Option String := none
  logo : Option String := none
  banner : Option String := none
  supply : Option NumFilter := none
  verified : Option Bool := none
  whereQ : Option (List (CTextField × List (String × String))) := none
deriving DecidableEq, Repr

def optCTextConds (f : CTextField) : Option String → List CCond
  | none => []
  | some v => [cTextCond f v]

/-- The `conditions` array of the collections route: text filters, the
`supply` filter, the `verified` filter — pushed only when
`searchQuery.verified` is truthy, i.e. only for the value `true` — and
finally the single-column keyset clause on `created_at`. -/
def buildCollConds (q : CollQuery) : List CCond :=
  optCTextConds .id q.idQ ++
  optCTextConds .slug q.slug ++
  optCTextConds .name q.name ++
  optCTextConds .description q.description ++
  optCTextConds .logo q.logo ++
  optCTextConds .banner q.banner ++
  (match q.supply with
   | none => []
   | some nf => supplyConds nf) ++
  (match q.verified with
   | some true => [.eqVerified true]
   | _ => []) ++
  (match q.page_key with
   | some k => [if q.order = "asc" then .curGt k else .curLt k]
   | none => [])

/-- Compilation of one nested `where` entry of the collections route
(`orm[op](collections[key], val)`). -/
def collWhereCond (f : CTextField) (op : String) (v : String) : Option CCond :=
  let val := if hasWild v then normWild v else v
  if op = "eq" then some (.eqT f val)
  else if op = "like" then some (.likeT f val)
  else if op = "gt" then some (.gtT f val)
  else if op = "lt" then some (.ltT f val)
  else if op = "gte" then some (.gteT f val)
  else if op = "lte" then some (.lteT f val)
  else none

/-- Where branch of the collections route: it calls `query.where(...)` once
per operator/value pair inside the loop, and every call REPLACES the previous
clause, so only the last compiled clause survives into the executed query
(an empty `where` object installs no clause at all). -/
def compileCollWhere (w : List (CTextField × List (String × String))) :
    Option (List CCond) :=
  ((w.flatMap (fun fs => fs.2.map (fun ov => (fs.1, ov.1, ov.2)))).mapM
    (fun fov => collWhereCond fov.1 fov.2.1 fov.2.2)).map
    (fun conds => conds.getLast?.toList)

/-- The clause list the executed collections query ends up with: the
accumulated conditions when no `where` parameter is present, otherwise only
the last clause of the `where` loop (everything else is discarded by the
replacement semantics of `.where`). -/
def executedCollConds (q : CollQuery) : Option (List CCond) :=
  match q.whereQ with
  | none => some (buildCollConds q)
  | some w => compileCollWhere w

/-- The OFFSET of the executed collections query (zero in cursor mode). -/
def executedCollOffset (q : CollQuery) : Nat :=
  if q.page_key.isSome then 0 else (q.page - 1) * q.page_size

/-- Response envelope of the collections listing route. -/
structure CollResponse where
  total : Nat
  page_size : Nat
  pages : Option Nat := none
  page : Option Nat := none
  prev : Option Nat := none
  next : Option Nat := none
  items_left : Option Nat := none
  page_key : Option Int := none
  has_more : Bool
  data : List Collection
  status : Nat
deriving DecidableEq, Repr

/-- Row order of the executed collections query:
`orderBy(order(created_at))` — a single column, no tie-break. -/
def collLeB (ascend : Bool) (a b : Collection) : Bool :=
  if ascend then decide (a.created_at ≤ b.created_at)
  else decide (b.created_at ≤ a.created_at)

/-- Truth of the AND-combined collections clause list at one row. -/
def cCondsHold (cs : List CCond) (c : Collection) : Bool := cs.all (fun cc => cc.holds c)

/-- The collections listing route: window-count total read off the first
returned row (`res[0]?.total ?? 0`), single-column sort and cursor. -/
def runColl (store : List Collection) (q : CollQuery) : Option CollResponse :=
  (executedCollConds q).map (fun conds =>
    let filtered := store.filter (cCondsHold conds)
    let sorted := List.insertionSort (fun a b => collLeB (q.order = "asc") a b = true) filtered
    let rows := (sorted.drop (executedCollOffset q)).take q.page_size
    let total := if rows.isEmpty then 0 else filtered.length
    let ps := q.page_size
    let offset := executedCollOffset q
    let left : Int := (total : Int) - (ps : Int)
    let has_next : Option Nat :=
      if (total : Int) > (offset : Int) + (ps : Int) then some (q.page + 1) else none
    let nextCursor : Option Int :=
      if has_next.isSome then rows.getLast?.map (fun c => c.created_at) else none
    if q.page_key.isSome then
      { total := total, page_size := ps,
        items_left := some (if left < 0 then 0 else left.toNat),
        page_key := nextCursor, has_more := decide (left > 0),
        data := rows, status := 200 }
    else
      { total := total, page_size := ps,
        pages := some (ceilDiv total ps), page := some q.page,
        prev := if 1 < q.page then some (q.page - 1) else none,
        next := has_next, page_key := nextCursor, has_more := has_next.isSome,
        data := rows, status := 200 })

/-! ### The include/exclude projection walker -/

/-- A JSON-shaped result value as the projection walker sees it.  Arrays (a
JavaScript `typeof value === 'object'` as well) do not occur in the claims
under study and are not modelled. -/
inductive JVal where
  | s (v : String)
  | i (v : Int)
  | b (v : Bool)
  | null
  | obj (fields : List (String × JVal))

/-- Dot-joined path of a field, the walker's
`prefix ? prefix + "." + key : key`. -/
def joinPath (pfx k : String) : String := if pfx = "" then k else pfx ++ "." ++ k

/-- One exclude pattern against one path: glob patterns (containing `*`)
match through the anchored regular expression with `*` as any characters;
plain patterns match exactly, or as the dead-in-practice literal comparison
`pattern === fullPath + ".*"` (a plain pattern never contains `*`, so that
disjunct never fires — kept to mirror the source). -/
def matchExclude (pat path : String) : Bool :=
  if hasWild pat then wildMatch '*' pat.toList path.toList
  else path == pat || pat == path ++ ".*"

/-- One include pattern against one path: glob via the same regular
expression, otherwise exact equality only. -/
def matchInclude (pat path : String) : Bool :=
  if hasWild pat then wildMatch '*' pat.toList path.toList
  else path == pat

mutual

/-- The walker `processObject` of the routes: non-objects (including `null`)
are returned unchanged, objects are rebuilt from their kept fields. -/
def processObject (ex inc : Option (List String)) (pfx : String) : JVal → JVal
  | .obj fields => .obj (processFields ex inc pfx fields)
  | v => v

/-- Field loop of `processObject`: `shouldInclude` starts `true`, an exclude
match clears it, an include match forces it back to `true`; kept object
values are recursed into with the extended path. -/
def processFields (ex inc : Option (List String)) (pfx : String) :
    List (String × JVal) → List (String × JVal)
  | [] => []
  | (k, v) :: rest =>
    let fullPath := joinPath pfx k
    let afterEx : Bool :=
      match ex with
      | some pats => !(pats.any (fun p => matchExclude p fullPath))
      | none => true
    let keep : Bool :=
      match inc with
      | some pats => afterEx || pats.any (fun p => matchInclude p fullPath)
      | none => afterEx
    if keep then (k, processObject ex inc fullPath v) :: processFields ex inc pfx rest
    else processFields ex inc pfx rest

end

/-- The spec's description of the walker's keep decision as a set predicate
over the two pattern lists: keep unless some exclude pattern matches, with
any include match forcing keep. -/
def keepPath (ex inc : Option (List String)) (path : String) : Bool :=
  (match ex with
   | some pats => !(pats.any (fun p => matchExclude p path))
   | none => true) ||
  (match inc with
   | some pats => pats.any (fun p => matchInclude p path)
   | none => false)

/-! ### Request validation of `where` operators -/

/-- One entry of the structured error payload
`{status, message, error: {issues: [{code, message, path}]}}`. -/
structure Issue where
  code : String
  message : String
  path : List String
deriving DecidableEq, Repr

/-- The six operator names the engine recognises in a `where`-form filter. -/
def knownWhereOps : List String := ["eq", "gt", "lt", "gte", "lte", "like"]

/-- The validation issue reported for one unknown operator on one field,
carrying both names. -/
def mkOpIssue (f : WhereField) (op : String) : Issue :=
  { code := "invalid_operator",
    message := "Unknown operator " ++ op ++ " for field " ++ f.colName,
    path := ["where", f.colName, op] }

/-- Modelled from the spec: the request-validation layer (`withValidation`
with `ethscriptionParamsSchema` from `src/utils/params-validation.ts`) is not
among the sources under review; per the spec an unknown operator name in a
`where`-form filter fails with a validation error naming the field and the
operator, detected before any store access.  This validator returns one issue
per offending `(field, operator)` pair. -/
def validateWhereOps (w : WhereObj) : List Issue :=
  (w.flatMap (fun fs => fs.2.map (fun ov => (fs.1, ov.1)))).filterMap
    (fun fo =>
      if knownWhereOps.contains fo.2 then none
      else some (mkOpIssue fo.1 fo.2))

/-- Modelled from the spec: the validated entry point — requests whose
`where` object names an operator outside the recognised set are rejected with
the validation issues before the query engine (and hence the store) is ever
consulted. -/
def runEthValidated (store : List Row) (q : EthQuery) :
    Except (List Issue) (Option EthResponse) :=
  match q.whereQ with
  | some w =>
    if validateWhereOps w = [] then .ok (runEth002 store q)
    else .error (validateWhereOps w)
  | none => .ok (runEth002 store q)

/-! ### Sample data for concrete evaluations -/

/-- A sample ethscription row with the given key and creator; all other
columns are neutral. -/
def mkRow (bn ti : Int) (cr : String) : Row :=
  { id := "", number := 0, block_number := bn, block_timestamp := 0,
    transaction_index := ti, media_type := "", media_subtype := "",
    content_type := "", content_sha := "", is_esip0 := false,
    is_esip3 := false, is_esip4 := false, is_esip6 := false, is_esip8 := false,
    creator := cr, initial_owner := "", current_owner := "", previous_owner := "",
    updated_at := 0, collection_id := none }

/-- A sample collection row with the given creation ordinal and verified
flag. -/
def mkColl (t : Int) (ident : String) (v : Bool) : Collection :=
  { created_at := t, id := ident, supply := 0, slug := "", name := "",
    description := "", logo := "", banner := "", links := "", team := "",
    royalties := "", verified := v }

end EthApi

namespace EthApi

/-! ### Claim C6 — wildcard handling of text filters -/

/-- Counterexample to claim C6 as stated: in the nested `where` form a value
containing the wildcard does NOT force a pattern-match clause — the requested
operator is kept, so `where[content_sha][eq]=0xF591*` compiles to an
exact-equality clause on the `%`-substituted literal, never a `LIKE`. -/
theorem c6_counterexample :
    compileWhere [(.wtext .content_sha, [("eq", "0xF591*")])]
      = some [Cond.eqText .content_sha "0xF591%"] ∧
    (Cond.eqText .content_sha "0xF591%").isLike = false := by
  constructor
  · rfl
  · rfl

/-- Claim C6, amended: for TOP-LEVEL text filters a value containing `*`
always compiles to a `LIKE` clause on the `%`-normalised value (never
equality) and a value without `*` compiles to exact equality; in the nested
`where` form the `*`→`%` normalisation is applied to the value but the
requested operator is kept as requested (`eq` stays equality, `like` becomes
a pattern match). -/
theorem c6_wildcard_forces_like :
    (∀ (f : TextField) (v : String), hasWild v = true →
      textCond f v = .likeText f (normWild v) ∧ (textCond f v).isLike = true) ∧
    (∀ (f : TextField) (v : String), hasWild v = false →
      textCond f v = .eqText f v ∧ (textCond f v).isLike = false) ∧
    (∀ (f : TextField) (v : String),
      whereCond (.wtext f) "eq" v
        = some (.eqText f (if hasWild v then normWild v else v))) ∧
    (∀ (f : TextField) (v : String),
      whereCond (.wtext f) "like" v
        = some (.likeText f (if hasWild v then normWild v else v))) := by
  refine ⟨fun f v h => ?_, fun f v h => ?_, fun f v => ?_, fun f v => ?_⟩
  · simp [textCond, h, Cond.isLike]
  · simp [textCond, h, Cond.isLike]
  · simp [whereCond]
  · simp [whereCond]

/-- Witness for `c6_wildcard_forces_like` at concrete inputs. -/
theorem c6_witness :
    (hasWild "0xF591*" = true ∧
      textCond .content_sha "0xF591*" = .likeText .content_sha "0xF591%" ∧
      (textCond .content_sha "0xF591*").isLike = true) ∧
    (hasWild "abc" = false ∧
      textCond .creator "abc" = .eqText .creator "abc" ∧
      (textCond .creator "abc").isLike = false) := by
  refine ⟨⟨by decide, ?_⟩, ⟨by decide, ?_⟩⟩
  · have h := c6_wildcard_forces_like.1 .content_sha "0xF591*" (by decide)
    exact ⟨by rw [h.1]; rfl, h.2⟩
  · have h := c6_wildcard_forces_like.2.1 .creator "abc" (by decide)
    exact ⟨h.1, h.2⟩

/-! ### Claim C7 — tri-state `collection_id` filter -/

/-- Claim C7: on the tri-state-nullable `collection_id` filter, the literal
`"true"` compiles to the IS NOT NULL clause, `"false"` and `"null"` both
compile to the IS NULL clause, and any other non-empty literal compiles to
equality, or to a pattern match when it contains `*`; the null clauses mean
exactly presence/absence of the value.  (An empty string is falsy in the
route's `if (searchQuery.collection_id)` guard and contributes no filter,
i.e. it does not count as filtering the field.) -/
theorem c7_tri_state_collection_id :
    (collectionIdConds (some "true") = [Cond.collNotNull]) ∧
    (collectionIdConds (some "false") = [Cond.collNull]) ∧
    (collectionIdConds (some "null") = [Cond.collNull]) ∧
    (∀ v : String, v ≠ "true" → v ≠ "false" → v ≠ "null" → v ≠ "" →
      (hasWild v = true → collectionIdConds (some v) = [Cond.likeColl (normWild v)]) ∧
      (hasWild v = false → collectionIdConds (some v) = [Cond.eqColl v])) ∧
    (∀ r : Row, Cond.holds .collNotNull r = r.collection_id.isSome) ∧
    (∀ r : Row, Cond.holds .collNull r = r.collection_id.isNone) := by
  refine ⟨by decide, by decide, by decide, fun v h1 h2 h3 h4 => ⟨fun hw => ?_, fun hw => ?_⟩,
    fun r => rfl, fun r => rfl⟩
  · simp [collectionIdConds, h1, h2, h3, h4, hw]
  · simp [collectionIdConds, h1, h2, h3, h4, hw]

/-- Witness for `c7_tri_state_collection_id` at a concrete literal. -/
theorem c7_witness :
    collectionIdConds (some "0xabc*") = [Cond.likeColl "0xabc%"] ∧
    collectionIdConds (some "0xabc") = [Cond.eqColl "0xabc"] := by
  constructor
  · have h := (c7_tri_state_collection_id.2.2.2.1 "0xabc*" (by decide) (by decide)
      (by decide) (by decide)).1 (by decide)
    rw [h]; rfl
  · exact (c7_tri_state_collection_id.2.2.2.1 "0xabc" (by decide) (by decide)
      (by decide) (by decide)).2 (by decide)

/-! ### Projections of the response assembler -/

theorem mkResponse_data (q : EthQuery) (total : Nat) (rows : List Row)
    (wil : Bool) : (mkResponse q total rows wil).data = rows := by
  unfold mkResponse
  split <;> rfl

theorem mkResponse_total (q : EthQuery) (total : Nat) (rows : List Row)
    (wil : Bool) : (mkResponse q total rows wil).total = total := by
  unfold mkResponse
  split <;> rfl

/-! ### Claim C10 — the `verified` filter is truthiness-guarded -/

/-- Claim C10: the collections route pushes the `verified` equality clause
only when the parsed value is truthy, i.e. only for `true`; any other parsed
value (in particular `false`) leaves the condition list exactly as if the
parameter were absent, so the page can contain verified and unverified rows
alike. -/
theorem c10_verified_truthy_only :
    (∀ q : CollQuery, q.verified ≠ some true →
      buildCollConds q = buildCollConds { q with verified := none }) ∧
    (runColl [mkColl 1 "a" true, mkColl 2 "b" false]
      { page := 1, page_size := 10, order := "asc", verified := some false }).map
      (fun r => r.data) = some [mkColl 1 "a" true, mkColl 2 "b" false] := by
  constructor
  · intro q h
    rcases q with ⟨p, ps, pk, o, i, sl, na, de, lo, ba, su, ve, wh⟩
    match ve, h with
    | none, _ => rfl
    | some false, _ => rfl
    | some true, h => exact absurd rfl h
  · decide

/-- Witness for `c10_verified_truthy_only` at a concrete query. -/
theorem c10_witness :
    buildCollConds { page_size := 10, verified := some false }
      = buildCollConds { page_size := 10, verified := none } :=
  c10_verified_truthy_only.1 { page_size := 10, verified := some false } (by decide)

/-! ### Claim C9 — unknown `where` operators are rejected by validation -/

/-- Claim C9 (settled against the spec-modelled validator, the zod schema
layer being outside the reviewed sources): a request whose nested
`where[field][op]` filter names an operator outside the recognised set fails
with a validation issue naming the offending field and operator, the request
is answered from validation alone (the same error for every store, i.e.
before any store access), and nothing is dispatched to the store layer. -/
theorem c9_unknown_where_op_rejected (store : List Row) (q : EthQuery)
    (w : WhereObj) (f : WhereField) (specs : List (String × String)) (op v : String)
    (hq : q.whereQ = some w) (hf : (f, specs) ∈ w) (hop : (op, v) ∈ specs)
    (hunk : knownWhereOps.contains op = false) :
    mkOpIssue f op ∈ validateWhereOps w ∧
    (mkOpIssue f op).path = ["where", f.colName, op] ∧
    runEthValidated store q = .error (validateWhereOps w) ∧
    (∀ store' : List Row, runEthValidated store' q = runEthValidated store q) := by
  have hmem : mkOpIssue f op ∈ validateWhereOps w := by
    unfold validateWhereOps
    rw [List.mem_filterMap]
    refine ⟨(f, op), ?_, by
      have h2 : op ∉ knownWhereOps := by simpa using hunk
      simp [h2]⟩
    rw [List.mem_flatMap]
    exact ⟨(f, specs), hf, List.mem_map.mpr ⟨(op, v), hop, rfl⟩⟩
  have hne : validateWhereOps w ≠ [] := List.ne_nil_of_mem hmem
  refine ⟨hmem, rfl, ?_, ?_⟩
  · simp [runEthValidated, hq, hne]
  · intro store'
    simp [runEthValidated, hq, hne]

/-- Witness for `c9_unknown_where_op_rejected` at a concrete request. -/
theorem c9_witness :
    mkOpIssue (.wtext .content_sha) "regexp"
      ∈ validateWhereOps [(.wtext .content_sha, [("regexp", "x")])] ∧
    (mkOpIssue (.wtext .content_sha) "regexp").path = ["where", "content_sha", "regexp"] ∧
    runEthValidated []
      { page_size := 10, whereQ := some [(.wtext .content_sha, [("regexp", "x")])] }
      = .error (validateWhereOps [(.wtext .content_sha, [("regexp", "x")])]) ∧
    (∀ store' : List Row, runEthValidated store'
        { page_size := 10, whereQ := some [(.wtext .content_sha, [("regexp", "x")])] }
      = runEthValidated []
        { page_size := 10, whereQ := some [(.wtext .content_sha, [("regexp", "x")])] }) :=
  c9_unknown_where_op_rejected [] _ _ (.wtext .content_sha) [("regexp", "x")]
    "regexp" "x" rfl (by decide) (by decide) (by decide)

/-! ### Claim C1 — interaction of nested `where` with top-level filters -/

/-- Counterexample to claim C1 as stated: a request carrying both a top-level
`creator=x` filter and a nested `where[content_sha][like]=*` filter returns
rows whose creator is not `x` — the top-level filter on the OTHER field is
not applied once a `where` object is present. -/
theorem c1_counterexample :
    (runEth002 [mkRow 1 1 "x", mkRow 2 1 "y"]
      { page := 1, page_size := 10, order := "asc", creator := some "x",
        whereQ := some [(.wtext .content_sha, [("like", "*")])] }).map
      (fun r => r.data) = some [mkRow 1 1 "x", mkRow 2 1 "y"] ∧
    (mkRow 2 1 "y").creator ≠ "x" ∧
    textCond .creator "x" = Cond.eqText .creator "x" ∧
    Cond.holds (Cond.eqText .creator "x") (mkRow 2 1 "y") = false := by
  refine ⟨by decide, by decide, by decide, by decide⟩

/-- Claim C1, amended: when a nested `where[field][op]` filter is present,
the clause list compiled from the `where` object replaces the ENTIRE
previously accumulated predicate — every top-level filter (on the same field
and on every other field) and any keyset cursor clause are discarded — and
the executed query filters by the `where` clauses alone. -/
theorem c1_where_replaces_all (store : List Row) (q : EthQuery) (w : WhereObj)
    (cs : List Cond) (hq : q.whereQ = some w) (hc : compileWhere w = some cs) :
    executedConds q = some cs ∧
    (runEth002 store q).map (fun r => r.data) = some (pageRows store q cs) := by
  have h1 : executedConds q = some cs := by simp [executedConds, hq, hc]
  refine ⟨h1, ?_⟩
  simp [runEth002, h1, mkResponse_data]

/-- Witness for `c1_where_replaces_all` at a concrete request. -/
theorem c1_witness :
    executedConds
      { page := 1, page_size := 10, order := "asc", creator := some "x",
        whereQ := some [(.wtext .content_sha, [("like", "*")])] }
      = some [Cond.likeText .content_sha "%"] ∧
    (runEth002 [mkRow 1 1 "x", mkRow 2 1 "y"]
      { page := 1, page_size := 10, order := "asc", creator := some "x",
        whereQ := some [(.wtext .content_sha, [("like", "*")])] }).map
      (fun r => r.data)
      = some (pageRows [mkRow 1 1 "x", mkRow 2 1 "y"]
          { page := 1, page_size := 10, order := "asc", creator := some "x",
            whereQ := some [(.wtext .content_sha, [("like", "*")])] }
          [Cond.likeText .content_sha "%"]) := by
  have h := c1_where_replaces_all [mkRow 1 1 "x", mkRow 2 1 "y"]
    { page := 1, page_size := 10, order := "asc", creator := some "x",
      whereQ := some [(.wtext .content_sha, [("like", "*")])] }
    [(.wtext .content_sha, [("like", "*")])] [Cond.likeText .content_sha "%"]
    rfl (by decide)
  exact ⟨h.1, h.2⟩

/-! ### Claim C2 — provenance of the `total` field -/

/-- Counterexample to claim C2 as stated: in the listing variant that runs a
separate preliminary count (`part_001`), `total` is the UNFILTERED row count
of the whole table, obtained in a second round trip — here a store of two
rows filtered down to one row still reports `total = 2`. -/
theorem c2_counterexample :
    (runEth001 [mkRow 1 1 "x", mkRow 2 1 "y"]
      { page := 1, page_size := 10, order := "asc", creator := some "x" }).map
      (fun r => (r.total, r.data.length)) = some (2, 1) ∧
    ([mkRow 1 1 "x", mkRow 2 1 "y"].filter
        (condsHold [Cond.eqText .creator "x"])).length = 1 ∧
    executedConds { page := 1, page_size := 10, order := "asc", creator := some "x" }
      = some [Cond.eqText .creator "x"] := by
  refine ⟨by decide, by decide, by decide⟩

/-- Claim C2, amended: in the window-aggregate variant (`part_002`), `total`
equals the number of rows satisfying the executed predicate — which in cursor
mode includes the keyset clause — whenever the returned page is non-empty,
and is reported as 0 for an empty page (`results[0]?.total ?? 0`); in the
separate-count variant (`part_001`), `total` is the whole table's row count,
computed by a second, unfiltered round trip. -/
theorem c2_total_provenance (store : List Row) (q : EthQuery) (cs : List Cond)
    (hc : executedConds q = some cs) :
    (∀ resp, runEth002 store q = some resp → resp.data ≠ [] →
      resp.total = (store.filter (condsHold cs)).length) ∧
    (∀ resp, runEth001 store q = some resp → resp.total = store.length) := by
  constructor
  · intro resp h hne
    simp only [runEth002, hc, Option.map_some', Option.some.injEq] at h
    subst h
    rw [mkResponse_data] at hne
    rw [mkResponse_total, windowTotal, if_neg (by simpa [List.isEmpty_iff] using hne)]
    rfl
  · intro resp h
    simp only [runEth001, hc, Option.map_some', Option.some.injEq] at h
    subst h
    rw [mkResponse_total]

/-- Witness for `c2_total_provenance` at a concrete request. -/
theorem c2_witness :
    ((runEth001 [mkRow 1 1 "x"] { page := 1, page_size := 10, order := "asc" }).getD
        (mkResponse { page := 1, page_size := 10, order := "asc" } 0 [] false)).total
      = [mkRow 1 1 "x"].length :=
  (c2_total_provenance [mkRow 1 1 "x"] { page := 1, page_size := 10, order := "asc" }
    (buildConds { page := 1, page_size := 10, order := "asc" } ++
      cursorConds { page := 1, page_size := 10, order := "asc" }) rfl).2
    _ (by decide)

/-! ### Claim C4 — strictness of the keyset clause, no OFFSET in cursor mode -/

/-- Counterexample to claim C4 as stated: for a cursor-mode request that also
carries a nested `where` filter, the keyset clause is discarded along with
all other accumulated conditions (drizzle's `.where` replacement), so the
boundary row whose key equals the decoded cursor IS re-delivered. -/
theorem c4_counterexample :
    (runEth002 [mkRow 1 1 "x"]
      { page := 1, page_size := 10, order := "asc", page_key := some (1, 1),
        whereQ := some [(.wtext .content_sha, [("like", "*")])] }).map
      (fun r => r.data) = some [mkRow 1 1 "x"] ∧
    rowKey (mkRow 1 1 "x") = (1, 1) := by
  refine ⟨by decide, by decide⟩

/-- Claim C4, amended: for every cursor-mode request WITHOUT a nested `where`
filter, the executed predicate carries the keyset clause — a strict
lexicographic row-value comparison over `(block_number, transaction_index)`,
strictly greater than the decoded cursor for ascending order, strictly lesser
for descending, never equal — so the boundary row is never re-delivered; and
no OFFSET is applied in cursor mode (with or without `where`). -/
theorem c4_keyset_strict (store : List Row) (q : EthQuery) (bn ti : Int)
    (hk : q.page_key = some (bn, ti)) (hw : q.whereQ = none) :
    executedConds q = some (buildConds q ++
      [if q.order = "asc" then Cond.cursorGt bn ti else Cond.cursorLt bn ti]) ∧
    (∀ r : Row, Cond.holds (.cursorGt bn ti) r = keyLt (bn, ti) (rowKey r)) ∧
    (∀ r : Row, Cond.holds (.cursorLt bn ti) r = keyLt (rowKey r) (bn, ti)) ∧
    (∀ q' : EthQuery, q'.page_key.isSome → executedOffset q' = 0) ∧
    (∀ resp, runEth002 store q = some resp → ∀ r ∈ resp.data, rowKey r ≠ (bn, ti)) := by
  have hconds : executedConds q = some (buildConds q ++
      [if q.order = "asc" then Cond.cursorGt bn ti else Cond.cursorLt bn ti]) := by
    simp only [executedConds, hw, cursorConds, hk]
    split <;> rfl
  refine ⟨hconds, fun r => rfl, fun r => rfl, fun q' h => by simp [executedOffset, h], ?_⟩
  intro resp h r hmem
  simp only [runEth002, hconds, Option.map_some', Option.some.injEq] at h
  subst h
  rw [mkResponse_data] at hmem
  rw [pageRows] at hmem
  have hs : r ∈ sortRows (q.order = "asc")
      (filteredRows store (buildConds q ++
        [if q.order = "asc" then Cond.cursorGt bn ti else Cond.cursorLt bn ti])) :=
    List.mem_of_mem_drop (List.mem_of_mem_take hmem)
  rw [sortRows, List.mem_insertionSort, filteredRows] at hs
  have hall := List.of_mem_filter hs
  rw [condsHold, List.all_append] at hall
  have hcur := (Bool.and_eq_true _ _).mp hall |>.2
  simp only [List.all_cons, List.all_nil, Bool.and_true] at hcur
  intro heq
  by_cases ho : q.order = "asc"
  · rw [if_pos ho] at hcur
    rw [Cond.holds, heq] at hcur
    simp [keyLt] at hcur
  · rw [if_neg ho] at hcur
    rw [Cond.holds, heq] at hcur
    simp [keyLt] at hcur

/-! ### Claim C3 — offset-mode pagination arithmetic -/

/-- Characterisation of `ceilDiv` as the ceiling of the division: it is the
least number of pages covering `t` rows. -/
theorem ceilDiv_bounds (t ps : Nat) (h : 1 ≤ ps) :
    t ≤ ceilDiv t ps * ps ∧ ceilDiv t ps * ps < t + ps := by
  unfold ceilDiv
  have h1 := Nat.div_add_mod (t + ps - 1) ps
  have h2 : (t + ps - 1) % ps < ps := Nat.mod_lt _ h
  rw [Nat.mul_comm] at h1
  omega

/-- Projections of the offset-mode pagination shape of the response. -/
theorem mkResponse_offset (q : EthQuery) (total : Nat) (rows : List Row)
    (wil : Bool) (hk : q.page_key = none) :
    (mkResponse q total rows wil).pages = some (ceilDiv total q.page_size) ∧
    (mkResponse q total rows wil).prev
      = (if 1 < q.page then some (q.page - 1) else none) ∧
    (mkResponse q total rows wil).next
      = (if (total : Int) > (executedOffset q : Int) + (q.page_size : Int)
          then some (q.page + 1) else none) ∧
    (mkResponse q total rows wil).has_more
      = (Option.isSome (if (total : Int) > (executedOffset q : Int) + (q.page_size : Int)
          then some (q.page + 1) else none)) := by
  unfold mkResponse
  rw [hk]
  exact ⟨rfl, rfl, rfl, rfl⟩

/-- Claim C3: for offset-mode requests (no cursor) with `page ≥ 1` and
`page_size ≥ 1`, the engine queries with OFFSET `(page - 1) * page_size`, and
the returned metadata satisfies `pages = ceil(total / page_size)` (witnessed
by the two ceiling bounds), `prev = page - 1` when `page > 1` and null
otherwise, `next = page + 1` when `total > offset + page_size` and null
otherwise, and `has_more` is true exactly when `next` is non-null. -/
theorem c3_offset_meta (store : List Row) (q : EthQuery) (resp : EthResponse)
    (hw : q.whereQ = none) (hk : q.page_key = none)
    (hp : 1 ≤ q.page) (hps : 1 ≤ q.page_size)
    (hrun : runEth002 store q = some resp) :
    executedOffset q = (q.page - 1) * q.page_size ∧
    resp.pages = some (ceilDiv resp.total q.page_size) ∧
    resp.total ≤ ceilDiv resp.total q.page_size * q.page_size ∧
    ceilDiv resp.total q.page_size * q.page_size < resp.total + q.page_size ∧
    resp.prev = (if 1 < q.page then some (q.page - 1) else none) ∧
    resp.next = (if (resp.total : Int) > (executedOffset q : Int) + (q.page_size : Int)
      then some (q.page + 1) else none) ∧
    resp.has_more = resp.next.isSome := by
  have hconds : executedConds q = some (buildConds q ++ cursorConds q) := by
    simp [executedConds, hw]
  simp only [runEth002, hconds, Option.map_some', Option.some.injEq] at hrun
  subst hrun
  have hoff : executedOffset q = (q.page - 1) * q.page_size := by
    simp [executedOffset, hk]
  have hm := mkResponse_offset q
    (windowTotal store q (buildConds q ++ cursorConds q))
    (pageRows store q (buildConds q ++ cursorConds q)) true hk
  refine ⟨hoff, ?_, ?_, ?_, hm.2.1, ?_, ?_⟩
  · rw [mkResponse_total]
    exact hm.1
  · rw [mkResponse_total]
    exact (ceilDiv_bounds _ _ hps).1
  · rw [mkResponse_total]
    exact (ceilDiv_bounds _ _ hps).2
  · rw [mkResponse_total]
    exact hm.2.2.1
  · rw [hm.2.2.1]
    exact hm.2.2.2

/-- The 97-row ascending fixture of the spec's offset-arithmetic example. -/
def store97 : List Row := (List.range 97).map (fun i => mkRow (Int.ofNat i) 0 "")

/-- The fixture request: `page_size = 20`, ascending, at the given page. -/
def q97 (p : Nat) : EthQuery := { page := p, page_size := 20, order := "asc" }

/-- The fixture response at the given page. -/
def resp97 (p : Nat) : EthResponse :=
  (runEth002 store97 (q97 p)).getD (mkResponse (q97 p) 0 [] true)

/-- Witness for `c3_offset_meta` at the spec's example (`total = 97`,
`page_size = 20`, `page = 5`). -/
theorem c3_witness :
    executedOffset (q97 5) = (5 - 1) * 20 ∧
    (resp97 5).pages = some (ceilDiv (resp97 5).total 20) ∧
    (resp97 5).total ≤ ceilDiv (resp97 5).total 20 * 20 ∧
    ceilDiv (resp97 5).total 20 * 20 < (resp97 5).total + 20 ∧
    (resp97 5).prev = (if 1 < 5 then some (5 - 1) else none) ∧
    (resp97 5).next = (if ((resp97 5).total : Int) > ((executedOffset (q97 5) : Nat) : Int) + (20 : Int)
      then some (5 + 1) else none) ∧
    (resp97 5).has_more = (resp97 5).next.isSome :=
  c3_offset_meta store97 (q97 5) (resp97 5) rfl rfl (by decide) (by decide) (by decide)

/-- The spec's concrete offset-arithmetic figures, evaluated on the fixture:
`pages = 5`; page 5 has `next = null`; page 1 has `prev = null`. -/
theorem c3_spec_examples :
    (resp97 5).pages = some 5 ∧ (resp97 5).next = none ∧ (resp97 1).prev = none := by
  decide

/-- The concrete cursor request used to witness `c4_keyset_strict`. -/
def c4q : EthQuery :=
  { page := 1, page_size := 10, order := "asc", page_key := some (1, 1) }

/-- Witness for `c4_keyset_strict` at a concrete cursor request. -/
theorem c4_witness :
    executedConds c4q = some (buildConds c4q ++ [Cond.cursorGt 1 1]) ∧
    executedOffset c4q = 0 ∧
    (∀ resp, runEth002 [mkRow 1 1 "x", mkRow 2 1 "y"] c4q = some resp →
      ∀ r ∈ resp.data, rowKey r ≠ (1, 1)) := by
  have h := c4_keyset_strict [mkRow 1 1 "x", mkRow 2 1 "y"] c4q 1 1 rfl rfl
  refine ⟨by simpa using h.1, h.2.2.2.1 c4q (by decide), h.2.2.2.2⟩

/-! ### Claim C8 — projection precedence -/

/-- Existential `any` over a list is invariant under permutation of the
list. -/
theorem any_perm {α : Type} {l l' : List α} (h : l.Perm l') (p : α → Bool) :
    l.any p = l'.any p := by
  by_cases hl : l.any p = true
  · rw [hl]
    symm
    rw [List.any_eq_true] at hl ⊢
    obtain ⟨x, hx, hpx⟩ := hl
    exact ⟨x, h.mem_iff.mp hx, hpx⟩
  · rw [Bool.not_eq_true] at hl
    rw [hl]
    symm
    rw [← Bool.not_eq_true, List.any_eq_true]
    rintro ⟨x, hx, hpx⟩
    rw [← Bool.not_eq_true, List.any_eq_true] at hl
    exact hl ⟨x, h.mem_iff.mpr hx, hpx⟩

/-- One step of the field loop, stated through the spec-shaped keep decision
`keepPath`: the sequential `shouldInclude` updates of the source compute
exactly "keep unless an exclude matches, with an include match forcing
keep". -/
theorem processFields_cons (ex inc : Option (List String)) (pfx k : String)
    (v : JVal) (rest : List (String × JVal)) :
    processFields ex inc pfx ((k, v) :: rest)
      = (if keepPath ex inc (joinPath pfx k)
          then [(k, processObject ex inc (joinPath pfx k) v)] else [])
        ++ processFields ex inc pfx rest := by
  cases ex with
  | none =>
    cases inc with
    | none => simp [processFields, keepPath]
    | some pi =>
      cases hi : pi.any (fun p => matchInclude p (joinPath pfx k)) <;>
        simp [processFields, keepPath, hi]
  | some pe =>
    cases inc with
    | none =>
      cases hx : pe.any (fun p => matchExclude p (joinPath pfx k)) <;>
        simp [processFields, keepPath, hx]
    | some pi =>
      cases hx : pe.any (fun p => matchExclude p (joinPath pfx k)) <;>
        cases hi : pi.any (fun p => matchInclude p (joinPath pfx k)) <;>
          simp [processFields, keepPath, hx, hi]

/-- The field loop keeps exactly the fields whose path satisfies the
exclude-then-include-override decision `keepPath`, recursing into the kept
values; in particular the keep decision is a set predicate over the two
pattern lists. -/
theorem processFields_eq_filterMap (ex inc : Option (List String)) (pfx : String)
    (fields : List (String × JVal)) :
    processFields ex inc pfx fields = fields.filterMap (fun kv =>
      if keepPath ex inc (joinPath pfx kv.1)
      then some (kv.1, processObject ex inc (joinPath pfx kv.1) kv.2) else none) := by
  induction fields with
  | nil => rfl
  | cons kv rest ih =>
    obtain ⟨k, v⟩ := kv
    rw [processFields_cons, List.filterMap_cons, ih]
    cases hkp : keepPath ex inc (joinPath pfx k) <;> simp [hkp]

mutual

/-- Pattern-list order does not matter to the walker: permuting the exclude
list and the include list leaves every projected value unchanged. -/
theorem processObject_perm_inv (exL exL' incL incL' : List String)
    (hex : exL.Perm exL') (hinc : incL.Perm incL') :
    ∀ (pfx : String) (v : JVal),
      processObject (some exL) (some incL) pfx v
        = processObject (some exL') (some incL') pfx v
  | _, .s _ => rfl
  | _, .i _ => rfl
  | _, .b _ => rfl
  | _, .null => rfl
  | pfx, .obj fields => by
    simp only [processObject]
    rw [processFields_perm_inv exL exL' incL incL' hex hinc pfx fields]

/-- Field-loop form of `processObject_perm_inv`. -/
theorem processFields_perm_inv (exL exL' incL incL' : List String)
    (hex : exL.Perm exL') (hinc : incL.Perm incL') :
    ∀ (pfx : String) (fields : List (String × JVal)),
      processFields (some exL) (some incL) pfx fields
        = processFields (some exL') (some incL') pfx fields
  | _, [] => rfl
  | pfx, (k, v) :: rest => by
    simp only [processFields,
      any_perm hex (fun p => matchExclude p (joinPath pfx k)),
      any_perm hinc (fun p => matchInclude p (joinPath pfx k)),
      processObject_perm_inv exL exL' incL incL' hex hinc (joinPath pfx k) v,
      processFields_perm_inv exL exL' incL incL' hex hinc pfx rest]

end

/-- Claim C8: the walker first applies the exclude patterns (exact, glob, or
parent wildcard), then an include pattern matching the exact path forces the
field back in — `keepPath` — and recursion proceeds into kept values at their
extended paths; the spec's example `exclude=["meta.*"], include=["meta.id"]`
projects `{meta: {id, secret}}` to `{meta: {id}}`; and the result does not
depend on the order of patterns within either list. -/
theorem c8_projection_precedence :
    (processObject (some ["meta.*"]) (some ["meta.id"]) ""
        (.obj [("meta", .obj [("id", .s "1"), ("secret", .s "2")])])
      = .obj [("meta", .obj [("id", .s "1")])]) ∧
    (∀ (ex inc : Option (List String)) (pfx : String) (fields : List (String × JVal)),
      processFields ex inc pfx fields = fields.filterMap (fun kv =>
        if keepPath ex inc (joinPath pfx kv.1)
        then some (kv.1, processObject ex inc (joinPath pfx kv.1) kv.2) else none)) ∧
    (∀ exL exL' incL incL' : List String, exL.Perm exL' → incL.Perm incL' →
      ∀ (pfx : String) (v : JVal),
        processObject (some exL) (some incL) pfx v
          = processObject (some exL') (some incL') pfx v) :=
  ⟨by rfl, processFields_eq_filterMap,
    fun exL exL' incL incL' hex hinc => processObject_perm_inv exL exL' incL incL' hex hinc⟩

/-! ### Claim C5 — ordering infrastructure for cursor iteration -/

theorem keyLe_total (a b : Int × Int) : keyLe a b = true ∨ keyLe b a = true := by
  simp only [keyLe, decide_eq_true_eq]
  omega

theorem keyLe_trans {a b c : Int × Int} (h1 : keyLe a b = true)
    (h2 : keyLe b c = true) : keyLe a c = true := by
  simp only [keyLe, decide_eq_true_eq] at h1 h2 ⊢
  omega

theorem keyLt_asymm {a b : Int × Int} (h1 : keyLt a b = true)
    (h2 : keyLt b a = true) : False := by
  simp only [keyLt, decide_eq_true_eq] at h1 h2
  omega

theorem keyLt_irrefl (a : Int × Int) : keyLt a a = false := by
  simp only [keyLt, decide_eq_false_iff_not]
  omega

theorem keyLt_of_le_of_ne {a b : Int × Int} (h1 : keyLe a b = true)
    (h2 : a ≠ b) : keyLt a b = true := by
  obtain ⟨a1, a2⟩ := a
  obtain ⟨b1, b2⟩ := b
  simp only [keyLe, keyLt, decide_eq_true_eq] at h1 ⊢
  simp only [ne_eq, Prod.mk.injEq, not_and] at h2
  rcases h1 with h | ⟨h, h'⟩
  · exact Or.inl h
  · subst h
    exact Or.inr ⟨rfl, lt_of_le_of_ne h' (fun hh => h2 rfl hh)⟩

theorem keyLt_false_of_lt {a b : Int × Int} (h : keyLt a b = true) :
    keyLt b a = false := by
  cases hb : keyLt b a with
  | false => rfl
  | true => exact absurd (keyLt_asymm h hb) (fun x => x)

/-- The ascending composite sort relation used by `sortRows true`. -/
instance : IsTotal Row (fun a b => rowLeB true a b = true) :=
  ⟨fun a b => by simpa [rowLeB] using keyLe_total (rowKey a) (rowKey b)⟩

instance : IsTrans Row (fun a b => rowLeB true a b = true) :=
  ⟨fun a b c h1 h2 => by
    simp only [rowLeB, if_true] at h1 h2 ⊢
    exact keyLe_trans h1 h2⟩

/-- The strict composite order is vacuously antisymmetric (it is asymmetric),
which is what pins down a strictly sorted permutation uniquely. -/
instance : IsAntisymm Row (fun a b => keyLt (rowKey a) (rowKey b) = true) :=
  ⟨fun a b h1 h2 => absurd (keyLt_asymm h1 h2) (fun x => x)⟩

/-- A store has pairwise-distinct composite keys. -/
def KeysDistinct (l : List Row) : Prop :=
  l.Pairwise (fun a b => rowKey a ≠ rowKey b)

theorem keysDistinct_filter {l : List Row} (hd : KeysDistinct l) (p : Row → Bool) :
    KeysDistinct (l.filter p) :=
  List.Pairwise.filter p hd

theorem keysDistinct_sortRows {l : List Row} (hd : KeysDistinct l) :
    KeysDistinct (sortRows true l) :=
  ((List.perm_insertionSort _ l).pairwise_iff
    (fun h => (h ∘ Eq.symm : _))).mpr hd

theorem sorted_sortRows (l : List Row) :
    (sortRows true l).Pairwise (fun a b => rowLeB true a b = true) := by
  rw [sortRows]
  exact List.sorted_insertionSort _ l

theorem perm_sortRows (ascend : Bool) (l : List Row) : (sortRows ascend l).Perm l :=
  List.perm_insertionSort _ l

/-- With pairwise-distinct keys the sorted list is strictly sorted on the
composite key. -/
theorem strictSorted_sortRows (l : List Row) (hd : KeysDistinct l) :
    (sortRows true l).Pairwise (fun a b => keyLt (rowKey a) (rowKey b) = true) := by
  have hs := sorted_sortRows l
  have hd2 := keysDistinct_sortRows hd
  refine ((hs.and hd2).imp fun {a b} h => ?_)
  have h1 : keyLe (rowKey a) (rowKey b) = true := by
    have := h.1
    simpa [rowLeB] using this
  exact keyLt_of_le_of_ne h1 h.2

/-- Sorting commutes with filtering: with distinct keys, the sorted filtered
list is the filtered sorted list (both are strictly sorted permutations of
the same set). -/
theorem sortRows_filter (l : List Row) (hd : KeysDistinct l) (p : Row → Bool) :
    sortRows true (l.filter p) = (sortRows true l).filter p := by
  refine List.eq_of_perm_of_sorted
    (r := fun a b => keyLt (rowKey a) (rowKey b) = true) ?_ ?_ ?_
  · exact (perm_sortRows true _).trans ((perm_sortRows true l).filter p).symm
  · exact strictSorted_sortRows _ (keysDistinct_filter hd p)
  · exact List.Pairwise.filter p (strictSorted_sortRows l hd)

/-- On a strictly sorted list, filtering for keys strictly beyond the element
at index `j` yields exactly the tail after position `j`. -/
theorem filter_keyLt_getElem (L : List Row)
    (hst : L.Pairwise (fun a b => keyLt (rowKey a) (rowKey b) = true))
    (j : Nat) (hj : j < L.length) :
    L.filter (fun r => keyLt (rowKey (L.get ⟨j, hj⟩)) (rowKey r)) = L.drop (j + 1) := by
  induction L generalizing j with
  | nil => simp at hj
  | cons a t ih =>
    rw [List.pairwise_cons] at hst
    obtain ⟨ha, ht⟩ := hst
    cases j with
    | zero =>
      show (a :: t).filter (fun r => keyLt (rowKey a) (rowKey r)) = (a :: t).drop (0 + 1)
      simp only [List.filter_cons, keyLt_irrefl, List.drop_succ_cons, List.drop_zero]
      exact List.filter_eq_self.mpr ha
    | succ j =>
      have hjt : j < t.length := by simpa using hj
      show (a :: t).filter (fun r => keyLt (rowKey (t.get ⟨j, hjt⟩)) (rowKey r))
        = (a :: t).drop (j + 1 + 1)
      simp only [List.filter_cons]
      have hat : keyLt (rowKey a) (rowKey (t.get ⟨j, hjt⟩)) = true :=
        ha _ (t.get_mem j hjt)
      rw [keyLt_false_of_lt hat]
      simpa using ih ht j hjt

/-- Cursor-following iteration of the listing API: issue the request, and
while the response says `has_more` and returns a `page_key`, follow it.  The
Boolean records whether the iteration stopped because `has_more` was false
(as the claim demands), rather than for lack of fuel or of a key. -/
def collectPages (store : List Row) : Nat → EthQuery → List Row × Bool
  | 0, _ => ([], false)
  | fuel + 1, q =>
    match runEth002 store q with
    | none => ([], false)
    | some resp =>
      if resp.has_more then
        match resp.page_key with
        | some k =>
          let next := collectPages store fuel { q with page_key := some k }
          (resp.data ++ next.1, next.2)
        | none => (resp.data, false)
      else (resp.data, true)

/-- Cursor-branch projections of the response assembler. -/
theorem mkResponse_cursor_proj (q : EthQuery) (total : Nat) (rows : List Row)
    (wil : Bool) (hk : q.page_key.isSome = true) :
    (mkResponse q total rows wil).has_more
      = decide ((total : Int) - (q.page_size : Int) > 0) ∧
    (mkResponse q total rows wil).page_key
      = (if (total : Int) > (executedOffset q : Int) + (q.page_size : Int)
          then rows.getLast?.map rowKey else none) ∧
    (mkResponse q total rows wil).data = rows := by
  unfold mkResponse
  rw [hk]
  refine ⟨rfl, ?_, rfl⟩
  by_cases hc : (total : Int) > (executedOffset q : Int) + (q.page_size : Int) <;>
    simp [hc]

/-- Offset-branch `has_more` and `page_key` projections of the response
assembler. -/
theorem mkResponse_offset_key (q : EthQuery) (total : Nat) (rows : List Row)
    (wil : Bool) (hk : q.page_key = none) :
    (mkResponse q total rows wil).has_more
      = decide ((total : Int) > (executedOffset q : Int) + (q.page_size : Int)) ∧
    (mkResponse q total rows wil).page_key
      = (if (total : Int) > (executedOffset q : Int) + (q.page_size : Int)
          then rows.getLast?.map rowKey else none) := by
  unfold mkResponse
  rw [hk]
  constructor
  · by_cases hc : (total : Int) > (executedOffset q : Int) + (q.page_size : Int) <;>
      simp [hc]
  · by_cases hc : (total : Int) > (executedOffset q : Int) + (q.page_size : Int) <;>
      simp [hc]

/-- Without a `where` parameter the executed clause list is the accumulated
conditions plus the cursor clause. -/
theorem executedConds_of_none {q : EthQuery} (hw : q.whereQ = none) :
    executedConds q = some (buildConds q ++ cursorConds q) := by
  unfold executedConds
  rw [hw]

/-- One cursor step and onward: if the rows strictly beyond the cursor are
exactly the tail of the sorted filtered list from position `m`, the iteration
delivers exactly that tail and stops with `has_more = false`. -/
theorem collect_cursor (store : List Row) (q0 : EthQuery) (L : List Row)
    (hw : q0.whereQ = none) (ho : q0.order = "asc") (hps : 1 ≤ q0.page_size)
    (hd : KeysDistinct store)
    (hL : L = sortRows true (filteredRows store (buildConds q0))) :
    ∀ (fuel m : Nat) (bn ti : Int),
      L.filter (fun r => keyLt (bn, ti) (rowKey r)) = L.drop m →
      L.length - m < fuel →
      collectPages store fuel { q0 with page_key := some (bn, ti) }
        = (L.drop m, true) := by
  have hstrict : L.Pairwise (fun a b => keyLt (rowKey a) (rowKey b) = true) := by
    rw [hL]
    exact strictSorted_sortRows _ (keysDistinct_filter hd _)
  intro fuel
  induction fuel with
  | zero =>
    intro m bn ti hfilter hfuel
    omega
  | succ fuel ih =>
    intro m bn ti hfilter hfuel
    have hbuild : buildConds { q0 with page_key := some (bn, ti) } = buildConds q0 := rfl
    have hoff : executedOffset { q0 with page_key := some (bn, ti) } = 0 := by
      simp [executedOffset]
    have hcur : cursorConds { q0 with page_key := some (bn, ti) }
        = [Cond.cursorGt bn ti] := by
      simp [cursorConds, ho]
    have hconds : executedConds { q0 with page_key := some (bn, ti) }
        = some (buildConds q0 ++ [Cond.cursorGt bn ti]) := by
      have h := executedConds_of_none
        (q := { q0 with page_key := some (bn, ti) }) hw
      rw [hbuild, hcur] at h
      exact h
    have hpred : condsHold (buildConds q0 ++ [Cond.cursorGt bn ti])
        = fun r => keyLt (bn, ti) (rowKey r) && condsHold (buildConds q0) r := by
      funext r
      simp [condsHold, List.all_append, Cond.holds, Bool.and_comm]
    have hfiltEq : filteredRows store (buildConds q0 ++ [Cond.cursorGt bn ti])
        = (filteredRows store (buildConds q0)).filter
            (fun r => keyLt (bn, ti) (rowKey r)) := by
      rw [filteredRows, filteredRows, hpred, List.filter_filter]
    have hdfilt : KeysDistinct (filteredRows store (buildConds q0)) := by
      rw [filteredRows]
      exact keysDistinct_filter hd _
    have hsortEq : sortRows true
        (filteredRows store (buildConds q0 ++ [Cond.cursorGt bn ti]))
        = L.drop m := by
      rw [hfiltEq, sortRows_filter _ hdfilt _, ← hL, hfilter]
    have hdec : decide (EthQuery.order { q0 with page_key := some (bn, ti) } = "asc")
        = true := by
      simp [ho]
    have hpage : pageRows store { q0 with page_key := some (bn, ti) }
        (buildConds q0 ++ [Cond.cursorGt bn ti])
        = (L.drop m).take q0.page_size := by
      rw [pageRows, hdec, hsortEq, hoff, List.drop_zero]
    have hlen : (filteredRows store (buildConds q0 ++ [Cond.cursorGt bn ti])).length
        = (L.drop m).length := by
      rw [← hsortEq]
      exact ((perm_sortRows true _).length_eq).symm
    have htotal : windowTotal store { q0 with page_key := some (bn, ti) }
        (buildConds q0 ++ [Cond.cursorGt bn ti]) = (L.drop m).length := by
      rw [windowTotal, hpage]
      by_cases hrem : L.drop m = []
      · rw [hrem]
        simp
      · have htake : (L.drop m).take q0.page_size ≠ [] := by
          intro hnil
          rw [List.take_eq_nil_iff] at hnil
          rcases hnil with h | h
          · omega
          · exact hrem h
        rw [if_neg (by simpa [List.isEmpty_iff] using htake)]
        exact hlen
    have hrun : runEth002 store { q0 with page_key := some (bn, ti) }
        = some (mkResponse { q0 with page_key := some (bn, ti) }
            (windowTotal store { q0 with page_key := some (bn, ti) }
              (buildConds q0 ++ [Cond.cursorGt bn ti]))
            (pageRows store { q0 with page_key := some (bn, ti) }
              (buildConds q0 ++ [Cond.cursorGt bn ti])) true) := by
      rw [runEth002, hconds]
      rfl
    have hproj := mkResponse_cursor_proj { q0 with page_key := some (bn, ti) }
      (windowTotal store { q0 with page_key := some (bn, ti) }
        (buildConds q0 ++ [Cond.cursorGt bn ti]))
      (pageRows store { q0 with page_key := some (bn, ti) }
        (buildConds q0 ++ [Cond.cursorGt bn ti])) true rfl
    rw [show EthQuery.page_size { q0 with page_key := some (bn, ti) } = q0.page_size
      from rfl] at hproj
    simp only [collectPages, hrun]
    by_cases hmore : q0.page_size < (L.drop m).length
    · -- more pages remain beyond this one
      have hmoreB : (mkResponse { q0 with page_key := some (bn, ti) }
          (windowTotal store { q0 with page_key := some (bn, ti) }
            (buildConds q0 ++ [Cond.cursorGt bn ti]))
          (pageRows store { q0 with page_key := some (bn, ti) }
            (buildConds q0 ++ [Cond.cursorGt bn ti])) true).has_more = true := by
        rw [hproj.1, htotal]
        simp only [decide_eq_true_eq]
        push_cast
        omega
      rw [hmoreB, if_pos rfl]
      have hbound : q0.page_size - 1 < (L.drop m).length := by omega
      have hlast : ((L.drop m).take q0.page_size).getLast?
          = some ((L.drop m).get ⟨q0.page_size - 1, hbound⟩) := by
        rw [List.getLast?_eq_getElem?]
        rw [List.length_take, Nat.min_eq_left (Nat.le_of_lt hmore)]
        rw [List.getElem?_take,
          if_pos (show q0.page_size - 1 < q0.page_size from by omega)]
        rw [List.getElem?_eq_getElem hbound]
        simp only [List.get_eq_getElem]
      have hkeyB : (mkResponse { q0 with page_key := some (bn, ti) }
          (windowTotal store { q0 with page_key := some (bn, ti) }
            (buildConds q0 ++ [Cond.cursorGt bn ti]))
          (pageRows store { q0 with page_key := some (bn, ti) }
            (buildConds q0 ++ [Cond.cursorGt bn ti])) true).page_key
          = some (rowKey ((L.drop m).get ⟨q0.page_size - 1, hbound⟩)) := by
        rw [hproj.2.1, htotal, hoff, hpage]
        split
        · rw [hlast]
          rfl
        · rename_i hcond
          exact absurd (by push_cast; omega) hcond
      simp only [hkeyB]
      have hmb : m + (q0.page_size - 1) < L.length := by
        have hld := List.length_drop m L
        omega
      have hidx : (L.drop m).get ⟨q0.page_size - 1, hbound⟩
          = L.get ⟨m + (q0.page_size - 1), hmb⟩ := by
        simp only [List.get_eq_getElem]
        rw [List.getElem_drop]
      have hfilter2 : L.filter (fun r =>
          keyLt (rowKey (L.get ⟨m + (q0.page_size - 1), hmb⟩)) (rowKey r))
          = L.drop (m + q0.page_size) := by
        have h := filter_keyLt_getElem L hstrict (m + (q0.page_size - 1)) hmb
        rw [show m + (q0.page_size - 1) + 1 = m + q0.page_size from by omega] at h
        exact h
      have hrec : collectPages store fuel
          { q0 with page_key := some (rowKey ((L.drop m).get ⟨q0.page_size - 1, hbound⟩)) }
          = (L.drop (m + q0.page_size), true) := by
        rw [hidx]
        refine ih (m + q0.page_size)
          (rowKey (L.get ⟨m + (q0.page_size - 1), hmb⟩)).1
          (rowKey (L.get ⟨m + (q0.page_size - 1), hmb⟩)).2 ?_ ?_
        · exact hfilter2
        · omega
      rw [hrec, hproj.2.2, hpage]
      have hsplit : (L.drop m).take q0.page_size ++ L.drop (m + q0.page_size)
          = L.drop m := by
        rw [show L.drop (m + q0.page_size) = (L.drop m).drop q0.page_size from by
          rw [List.drop_drop, Nat.add_comm]]
        exact List.take_append_drop _ _
      rw [hsplit]
    · -- final page: everything that remains fits in one window
      have hmoreB : (mkResponse { q0 with page_key := some (bn, ti) }
          (windowTotal store { q0 with page_key := some (bn, ti) }
            (buildConds q0 ++ [Cond.cursorGt bn ti]))
          (pageRows store { q0 with page_key := some (bn, ti) }
            (buildConds q0 ++ [Cond.cursorGt bn ti])) true).has_more = false := by
        rw [hproj.1, htotal]
        simp only [decide_eq_false_iff_not]
        push_cast
        omega
      rw [hmoreB]
      simp only [Bool.false_eq_true, if_false]
      rw [hproj.2.2, hpage]
      rw [List.take_of_length_le (by omega)]

/-- Claim C5, amended, positive part: against the window-total variant
(`part_002`), for a fixed filter set, ascending order, no nested `where`, a
positive page size, and pairwise-distinct composite keys, starting at page 1
and repeatedly following the returned `page_key` delivers exactly the sorted
filtered rows — every matching row exactly once, in non-decreasing
`(block_number, transaction_index)` order — and the iteration stops because
`has_more` turned false; the traversal order is the composite-key sort that
ties every page to the cursor comparison. -/
theorem c5_cursor_iteration (store : List Row) (q : EthQuery)
    (hw : q.whereQ = none) (ho : q.order = "asc") (hk : q.page_key = none)
    (hp : q.page = 1) (hps : 1 ≤ q.page_size) (hd : KeysDistinct store) :
    collectPages store (store.length + 1) q
      = (sortRows true (filteredRows store (buildConds q)), true) ∧
    (sortRows true (filteredRows store (buildConds q))).Pairwise
      (fun a b => keyLe (rowKey a) (rowKey b) = true) ∧
    (sortRows true (filteredRows store (buildConds q))).Perm
      (store.filter (condsHold (buildConds q))) := by
  refine ⟨?_, ?_, ?_⟩
  case refine_2 =>
    exact (sorted_sortRows _).imp (fun h => by simpa [rowLeB] using h)
  case refine_3 =>
    exact perm_sortRows true _
  have hLdef : sortRows true (filteredRows store (buildConds q))
      = sortRows true (filteredRows store (buildConds q)) := rfl
  generalize hL : sortRows true (filteredRows store (buildConds q)) = L
  have hLs : L = sortRows true (filteredRows store (buildConds q)) := hL.symm
  have hstrict : L.Pairwise (fun a b => keyLt (rowKey a) (rowKey b) = true) := by
    rw [hLs, filteredRows]
    exact strictSorted_sortRows _ (keysDistinct_filter hd _)
  have hcur0 : cursorConds q = [] := by
    simp [cursorConds, hk]
  have hconds : executedConds q = some (buildConds q) := by
    have h := executedConds_of_none hw
    rw [hcur0, List.append_nil] at h
    exact h
  have hrun : runEth002 store q
      = some (mkResponse q (windowTotal store q (buildConds q))
          (pageRows store q (buildConds q)) true) := by
    rw [runEth002, hconds]
    rfl
  have hoff : executedOffset q = 0 := by
    simp [executedOffset, hk, hp]
  have hdec : decide (q.order = "asc") = true := by simp [ho]
  have hpage : pageRows store q (buildConds q) = L.take q.page_size := by
    rw [pageRows, hdec, hoff, List.drop_zero, hL]
  have hlen : (filteredRows store (buildConds q)).length = L.length := by
    rw [hLs]
    exact ((perm_sortRows true _).length_eq).symm
  have htotal : windowTotal store q (buildConds q) = L.length := by
    rw [windowTotal, hpage]
    by_cases hrem : L = []
    · rw [hrem]
      simp
    · have htake : L.take q.page_size ≠ [] := by
        intro hnil
        rw [List.take_eq_nil_iff] at hnil
        rcases hnil with h | h
        · omega
        · exact hrem h
      rw [if_neg (by simpa [List.isEmpty_iff] using htake)]
      exact hlen
  have hstorelen : L.length ≤ store.length := by
    have h2 : (filteredRows store (buildConds q)).length ≤ store.length := by
      rw [filteredRows]
      exact List.length_filter_le _ _
    omega
  have hproj := mkResponse_offset_key q (windowTotal store q (buildConds q))
    (pageRows store q (buildConds q)) true hk
  simp only [collectPages, hrun]
  by_cases hmore : q.page_size < L.length
  · have hmoreB : (mkResponse q (windowTotal store q (buildConds q))
        (pageRows store q (buildConds q)) true).has_more = true := by
      rw [hproj.1, htotal, hoff]
      simp only [decide_eq_true_eq]
      push_cast
      omega
    rw [hmoreB, if_pos rfl]
    have hbound : q.page_size - 1 < L.length := by omega
    have hlast : (L.take q.page_size).getLast?
        = some (L.get ⟨q.page_size - 1, hbound⟩) := by
      rw [List.getLast?_eq_getElem?]
      rw [List.length_take, Nat.min_eq_left (Nat.le_of_lt hmore)]
      rw [List.getElem?_take,
        if_pos (show q.page_size - 1 < q.page_size from by omega)]
      rw [List.getElem?_eq_getElem hbound]
      simp only [List.get_eq_getElem]
    have hkeyB : (mkResponse q (windowTotal store q (buildConds q))
        (pageRows store q (buildConds q)) true).page_key
        = some (rowKey (L.get ⟨q.page_size - 1, hbound⟩)) := by
      rw [hproj.2, htotal, hoff, hpage]
      split
      · rw [hlast]
        rfl
      · rename_i hcond
        exact absurd (by push_cast; omega) hcond
    simp only [hkeyB]
    have hfilter1 : L.filter (fun r =>
        keyLt (rowKey (L.get ⟨q.page_size - 1, hbound⟩)) (rowKey r))
        = L.drop q.page_size := by
      have h := filter_keyLt_getElem L hstrict (q.page_size - 1) hbound
      rw [show q.page_size - 1 + 1 = q.page_size from by omega] at h
      exact h
    have hrec : collectPages store store.length
        { q with page_key := some (rowKey (L.get ⟨q.page_size - 1, hbound⟩)) }
        = (L.drop q.page_size, true) := by
      have h := collect_cursor store q L hw ho hps hd hLs store.length q.page_size
        (rowKey (L.get ⟨q.page_size - 1, hbound⟩)).1
        (rowKey (L.get ⟨q.page_size - 1, hbound⟩)).2
        hfilter1 (by omega)
      exact h
    rw [hrec, mkResponse_data, hpage, List.take_append_drop]
  · have hmoreB : (mkResponse q (windowTotal store q (buildConds q))
        (pageRows store q (buildConds q)) true).has_more = false := by
      rw [hproj.1, htotal, hoff]
      simp only [decide_eq_false_iff_not]
      push_cast
      omega
    rw [hmoreB]
    simp only [Bool.false_eq_true, if_false]
    rw [mkResponse_data, hpage]
    rw [List.take_of_length_le (by omega)]

/-- Counterexample to claim C5 as stated: in the separate-count variant
(`part_001`, which the claim's cited lines live in), `total` is the whole
table's row count regardless of filters and cursor, so after BOTH rows of a
two-row store have been delivered (pages of size 1), the next cursor request
returns an empty page with `has_more` still `true` — the iteration never
terminates with `has_more = false`, and the emitted `page_key` chain ends in
a dangling value (`results.at(-1)` of an empty page). -/
theorem c5_counterexample :
    (runEth001 [mkRow 1 1 "", mkRow 2 1 ""]
      { page := 1, page_size := 1, order := "asc" }).map
      (fun r => (r.data, r.has_more, r.page_key))
      = some ([mkRow 1 1 ""], true, some (1, 1)) ∧
    (runEth001 [mkRow 1 1 "", mkRow 2 1 ""]
      { page := 1, page_size := 1, order := "asc", page_key := some (1, 1) }).map
      (fun r => (r.data, r.has_more, r.page_key))
      = some ([mkRow 2 1 ""], true, some (2, 1)) ∧
    (runEth001 [mkRow 1 1 "", mkRow 2 1 ""]
      { page := 1, page_size := 1, order := "asc", page_key := some (2, 1) }).map
      (fun r => (r.data, r.has_more, r.page_key))
      = some ([], true, none) := by
  refine ⟨by decide, by decide, by decide⟩

/-- Witness for `c5_cursor_iteration` on a concrete two-row store with
page size 1. -/
theorem c5_witness :
    collectPages [mkRow 1 1 "", mkRow 2 1 ""]
      ([mkRow 1 1 "", mkRow 2 1 ""].length + 1)
      { page := 1, page_size := 1, order := "asc" }
      = (sortRows true (filteredRows [mkRow 1 1 "", mkRow 2 1 ""]
          (buildConds { page := 1, page_size := 1, order := "asc" })), true) ∧
    (sortRows true (filteredRows [mkRow 1 1 "", mkRow 2 1 ""]
        (buildConds { page := 1, page_size := 1, order := "asc" }))).Pairwise
      (fun a b => keyLe (rowKey a) (rowKey b) = true) ∧
    (sortRows true (filteredRows [mkRow 1 1 "", mkRow 2 1 ""]
        (buildConds { page := 1, page_size := 1, order := "asc" }))).Perm
      ([mkRow 1 1 "", mkRow 2 1 ""].filter
        (condsHold (buildConds { page := 1, page_size := 1, order := "asc" }))) :=
  c5_cursor_iteration [mkRow 1 1 "", mkRow 2 1 ""]
    { page := 1, page_size := 1, order := "asc" }
    rfl rfl rfl rfl (by decide)
    (show List.Pairwise (fun a b => rowKey a ≠ rowKey b)
      [mkRow 1 1 "", mkRow 2 1 ""] from by decide)


/-- Witness for `c8_projection_precedence` at concrete permuted pattern
lists. -/
theorem c8_witness :
    processObject (some ["meta.*", "other"]) (some ["meta.id", "x"]) ""
      (.obj [("meta", .obj [("id", .s "1"), ("secret", .s "2")])])
      = processObject (some ["other", "meta.*"]) (some ["x", "meta.id"]) ""
      (.obj [("meta", .obj [("id", .s "1"), ("secret", .s "2")])]) :=
  c8_projection_precedence.2.2 ["meta.*", "other"] ["other", "meta.*"]
    ["meta.id", "x"] ["x", "meta.id"] (by decide) (by decide) ""
    (.obj [("meta", .obj [("id", .s "1"), ("secret", .s "2")])])

end EthApi
